import Mathlib

/-!
# Verification of the paqet_license admission store

Shallow embedding of `internal/store/bbolt_store.go` (package `store`) of the
`paqet_license` repository, together with the record types of the `store`
package and proofs about the admission engine (`Activate`) and the registry
operations (`CreateLicense`, `SetLimit`, `SetEnabled`, `GetInfo`).

Modelling conventions:
* A bbolt bucket is a finite map from byte-string keys to values; we embed it
  as an association list `List (String × β)` with `bucketGet` (bbolt `Get`)
  and `bucketPut` (bbolt `Put`, replace-or-append).  No claim depends on the
  iteration order of a bucket: the only iterations in the source are
  `countKeys` (order-independent count) and `getBindings` (sorted afterwards).
* `time.Now().UTC()` is passed in as an explicit `now : Nat` parameter;
  monotonicity of the wall clock is a hypothesis where a claim needs it.
* `license.NewKey()` (crypto-random key generation) is passed in as an
  explicit `key` parameter.
* Go's `len` on a string counts UTF-8 bytes, embedded as `String.utf8ByteSize`;
  `strings.TrimSpace` is embedded as `trimSpace` below (drop leading and
  trailing whitespace characters).
* Go multi-value returns `(T, error)` are embedded as `T × Option String`
  (the error message, `none` for `nil`); mutating operations additionally
  return the post-transaction store state, and a rolled-back transaction
  returns the input state unchanged.  Storage I/O failures (bbolt/JSON
  errors) are outside the model: the embedded state is typed, so
  (un)marshalling always succeeds.
-/

namespace PaqetLicense

/-- `store.License` record. -/
structure License where
  key : String
  limit : Int
  note : String
  enabled : Bool
  createdAt : Nat
  deriving Repr, DecidableEq

/-- `store.ServerBinding` record. -/
structure ServerBinding where
  serverID : String
  firstSeen : Nat
  lastSeen : Nat
  seenCount : Int
  deriving Repr, DecidableEq

/-- `store.ActivateResult` record. -/
structure ActivateResult where
  ok : Bool
  reason : String
  used : Int
  limit : Int
  newlyBound : Bool
  deriving Repr, DecidableEq

/-- `store.LicenseInfo` record. -/
structure LicenseInfo where
  license : License
  used : Int
  bindings : List ServerBinding
  deriving Repr, DecidableEq

/-- `strings.TrimSpace`: drop whitespace from both ends of a string.
(Go trims by `unicode.IsSpace`; `Char.isWhitespace` covers the ASCII
whitespace characters, which is all any claim exercises.) -/
def trimSpace (s : String) : String :=
  ⟨((s.data.dropWhile Char.isWhitespace).reverse.dropWhile Char.isWhitespace).reverse⟩

/-- Go zero value `License{}`. -/
def License.zero : License := ⟨"", 0, "", false, 0⟩

/-- Go zero value `LicenseInfo{}`. -/
def LicenseInfo.zero : LicenseInfo := ⟨License.zero, 0, []⟩

/-- bbolt `Bucket.Get`: look a key up in a bucket. -/
def bucketGet {β : Type} : List (String × β) → String → Option β
  | [], _ => none
  | (k', v) :: rest, k => if k = k' then some v else bucketGet rest k

/-- bbolt `Bucket.Put`: replace the value under an existing key, or add the
key.  (bbolt keeps keys in byte order; we append instead, which no claim can
observe — see the module comment.) -/
def bucketPut {β : Type} : List (String × β) → String → β → List (String × β)
  | [], k, v => [(k, v)]
  | (k', v') :: rest, k, v =>
      if k = k' then (k, v) :: rest else (k', v') :: bucketPut rest k v

/-- `countKeys`: count the entries of a bucket by iterating
(`bbolt_store.go:269`). -/
def countKeys {β : Type} (b : List (String × β)) : Int := (b.length : Int)

/-- The persisted state: the `licenses` bucket (license records keyed by
license key) and the `usage` bucket (one sub-bucket of `ServerBinding`
records per license key, keyed by server id). -/
structure StoreState where
  licenses : List (String × License)
  usage : List (String × List (String × ServerBinding))
  deriving Repr, DecidableEq

/-- `getLicense` (`bbolt_store.go:225`): fetch a license record, `none` for
the Go `errNotFound` path. -/
def getLicense (st : StoreState) (key : String) : Option License :=
  bucketGet st.licenses key

/-- `CreateLicense` (`bbolt_store.go:57`).  `key` stands for the value
produced by `license.NewKey()` and `now` for `time.Now().UTC()`. -/
def CreateLicense (st : StoreState) (key : String) (now : Nat)
    (limit : Int) (note : String) : StoreState × License × Option String :=
  if limit ≤ 0 then (st, License.zero, some "limit must be > 0")
  else
    let lic : License := ⟨key, limit, note, true, now⟩
    if (bucketGet st.licenses key).isSome then
      (st, License.zero, some "key collision, try again")
    else
      ({ licenses := bucketPut st.licenses key lic,
         usage := if (bucketGet st.usage key).isSome then st.usage
                  else bucketPut st.usage key [] },
       lic, none)

/-- `SetLimit` (`bbolt_store.go:85`).  As in the source, the write goes to
the record's own `Key` field (`putLicense` uses `lic.Key`). -/
def SetLimit (st : StoreState) (key : String) (limit : Int) :
    StoreState × License × Option String :=
  if limit ≤ 0 then (st, License.zero, some "limit must be > 0")
  else
    match getLicense st key with
    | none => (st, License.zero, some "license not found")
    | some lic =>
        let lic' : License := { lic with limit := limit }
        ({ st with licenses := bucketPut st.licenses lic'.key lic' }, lic', none)

/-- `SetEnabled` (`bbolt_store.go:104`). -/
def SetEnabled (st : StoreState) (key : String) (enabled : Bool) :
    StoreState × License × Option String :=
  match getLicense st key with
  | none => (st, License.zero, some "license not found")
  | some lic =>
      let lic' : License := { lic with enabled := enabled }
      ({ st with licenses := bucketPut st.licenses lic'.key lic' }, lic', none)

/-- Descending order on `last_seen`: the comparator of the `sort.Slice` call
in `getBindings` (`bbolt_store.go:263`). -/
def lastSeenGe (x y : ServerBinding) : Prop := y.lastSeen ≤ x.lastSeen

instance : DecidableRel lastSeenGe := fun x y => Nat.decLe y.lastSeen x.lastSeen

instance : IsTotal ServerBinding lastSeenGe :=
  ⟨fun a b => (Nat.le_total b.lastSeen a.lastSeen).imp id id⟩

instance : IsTrans ServerBinding lastSeenGe :=
  ⟨fun _ _ _ hab hbc => Nat.le_trans hbc hab⟩

/-- `getBindings` (`bbolt_store.go:244`): collect the bindings of a license
(overwriting each record's `ServerID` with its bucket key, as the source
does), then sort by `last_seen` descending. -/
def getBindings (st : StoreState) (key : String) : List ServerBinding :=
  match bucketGet st.usage key with
  | none => []
  | some b =>
      List.insertionSort lastSeenGe (b.map fun p => { p.2 with serverID := p.1 })

/-- `GetInfo` (`bbolt_store.go:120`). -/
def GetInfo (st : StoreState) (key : String) : LicenseInfo × Option String :=
  match getLicense st key with
  | none => (LicenseInfo.zero, some "license not found")
  | some lic =>
      let bs := getBindings st key
      (⟨lic, (bs.length : Int), bs⟩, none)

/-- The binding written on first activation (`bbolt_store.go:210`). -/
def freshBinding (now : Nat) (serverID : String) : ServerBinding :=
  ⟨serverID, now, now, 1⟩

/-- `Activate` (`bbolt_store.go:164`), the admission engine.  `now` stands
for `time.Now().UTC()`.  Runs inside one `db.Update` writer transaction in
the source; the returned state is the committed state. -/
def Activate (st : StoreState) (now : Nat) (key0 serverID0 : String) :
    StoreState × ActivateResult × Option String :=
  let key := trimSpace key0
  let serverID := trimSpace serverID0
  if key = "" ∨ serverID = "" then
    (st, ⟨false, "invalid_request", 0, 0, false⟩, none)
  else if 128 < serverID.utf8ByteSize then
    (st, ⟨false, "server_id_too_long", 0, 0, false⟩, none)
  else
    match getLicense st key with
    | none => (st, ⟨false, "not_found", 0, 0, false⟩, none)
    | some lic =>
        if lic.enabled = false then
          (st, ⟨false, "disabled", 0, lic.limit, false⟩, none)
        else
          -- `CreateBucketIfNotExists` for the license's usage sub-bucket
          let st1 := if (bucketGet st.usage key).isSome then st
                     else { st with usage := bucketPut st.usage key [] }
          let b := (bucketGet st.usage key).getD []
          match bucketGet b serverID with
          | some sb =>
              let sb' : ServerBinding :=
                { sb with lastSeen := now, seenCount := sb.seenCount + 1 }
              let b' := bucketPut b serverID sb'
              ({ st1 with usage := bucketPut st1.usage key b' },
               ⟨true, "ok", countKeys b', lic.limit, false⟩, none)
          | none =>
              let used := countKeys b
              if lic.limit ≤ used then
                (st1, ⟨false, "limit_reached", used, lic.limit, false⟩, none)
              else
                let b' := bucketPut b serverID (freshBinding now serverID)
                ({ st1 with usage := bucketPut st1.usage key b' },
                 ⟨true, "ok", countKeys b', lic.limit, true⟩, none)

/-- Run a list of `Activate` calls in sequence against the store (the
serialization of concurrent calls enforced by the bbolt single-writer
transaction), collecting the results. -/
def activateList (st : StoreState) (now : Nat) (key : String) :
    List String → StoreState × List ActivateResult
  | [] => (st, [])
  | d :: ds =>
      let p := Activate st now key d
      let q := activateList p.1 now key ds
      (q.1, p.2.1 :: q.2)

/-- A valid (already-trimmed, non-empty, short-enough) identifier. -/
def ValidId (d : String) : Prop :=
  trimSpace d = d ∧ d ≠ "" ∧ d.utf8ByteSize ≤ 128

instance (d : String) : Decidable (ValidId d) := by
  unfold ValidId
  infer_instance

/-- The usage bucket after first-activating each of `ds` in order. -/
def putAll (now : Nat) : List (String × ServerBinding) → List String →
    List (String × ServerBinding)
  | b, [] => b
  | b, d :: ds => putAll now (bucketPut b d (freshBinding now d)) ds

/-- The binding stored for device `d` under license `key` (reading through
the two bucket levels), `none` when either level misses. -/
def lookupBinding (st : StoreState) (key d : String) : Option ServerBinding :=
  bucketGet ((bucketGet st.usage key).getD []) d

/-- The store with the `seen_count` of every binding under `key` replaced
according to `g` (used to state that `Used` is independent of the
`seen_count` values). -/
def withCounts (st : StoreState) (key : String) (g : String → Int) : StoreState :=
  { st with
      usage := bucketPut st.usage key
        (((bucketGet st.usage key).getD []).map fun q =>
          (q.1, { q.2 with seenCount := g q.1 })) }

/-! Concrete states used by the witnesses. -/

/-- A license with key `"K"`, limit 2, enabled. -/
def licK : License := ⟨"K", 2, "", true, 0⟩

/-- Fresh store: license `"K"` created, no bindings yet. -/
def stFresh : StoreState := ⟨[("K", licK)], [("K", [])]⟩

/-- Store with license `"K"` at capacity: devices `"A"` and `"B"` bound. -/
def stBound : StoreState :=
  ⟨[("K", licK)],
   [("K", [("A", ⟨"A", 1, 1, 1⟩), ("B", ⟨"B", 2, 2, 1⟩)])]⟩

/-- Store with license `"K"` (limit 2) holding one binding: one slot left. -/
def stOne : StoreState :=
  ⟨[("K", licK)], [("K", [("A", ⟨"A", 1, 1, 1⟩)])]⟩

/-- Store whose license `"K"` is disabled but still has three bindings. -/
def stDis : StoreState :=
  ⟨[("K", ⟨"K", 2, "", false, 0⟩)],
   [("K", [("A", ⟨"A", 1, 1, 1⟩), ("B", ⟨"B", 2, 2, 1⟩), ("C", ⟨"C", 3, 3, 1⟩)])]⟩

/-- The empty store. -/
def stEmpty : StoreState := ⟨[], []⟩

/-- A 128-character identifier whose UTF-8 encoding takes 256 bytes. -/
def longId : String := String.mk (List.replicate 128 'é')

/-- A 128-character ASCII identifier (128 UTF-8 bytes). -/
def asciiId : String := String.mk (List.replicate 128 'a')

/-! ### Association-list (bucket) lemmas -/

theorem bucketGet_put_self {β : Type} (b : List (String × β)) (k : String) (v : β) :
    bucketGet (bucketPut b k v) k = some v := by
  induction b with
  | nil => simp [bucketPut, bucketGet]
  | cons p rest ih =>
      obtain ⟨k', v'⟩ := p
      by_cases h : k = k' <;> simp [bucketPut, bucketGet, h, ih]

theorem bucketGet_put_ne {β : Type} (b : List (String × β)) (k k' : String) (v : β)
    (h : k' ≠ k) : bucketGet (bucketPut b k v) k' = bucketGet b k' := by
  induction b with
  | nil => simp [bucketPut, bucketGet, h]
  | cons p rest ih =>
      obtain ⟨k₀, v₀⟩ := p
      by_cases hk : k = k₀
      · subst hk
        simp [bucketPut, bucketGet, h]
      · by_cases hk' : k' = k₀ <;> simp [bucketPut, bucketGet, hk, hk', ih]

theorem length_bucketPut_none {β : Type} (b : List (String × β)) (k : String) (v : β)
    (h : bucketGet b k = none) : (bucketPut b k v).length = b.length + 1 := by
  induction b with
  | nil => simp [bucketPut]
  | cons p rest ih =>
      obtain ⟨k₀, v₀⟩ := p
      by_cases hk : k = k₀
      · simp [bucketGet, hk] at h
      · simp [bucketGet, hk] at h
        simp [bucketPut, hk, ih h]

theorem length_bucketPut_some {β : Type} (b : List (String × β)) (k : String) (v w : β)
    (h : bucketGet b k = some w) : (bucketPut b k v).length = b.length := by
  induction b with
  | nil => simp [bucketGet] at h
  | cons p rest ih =>
      obtain ⟨k₀, v₀⟩ := p
      by_cases hk : k = k₀
      · simp [bucketPut, hk]
      · simp [bucketGet, hk] at h
        simp [bucketPut, hk, ih h]

theorem bucketPut_get_self {β : Type} (b : List (String × β)) (k : String) (v : β)
    (h : bucketGet b k = some v) : bucketPut b k v = b := by
  induction b with
  | nil => simp [bucketGet] at h
  | cons p rest ih =>
      obtain ⟨k₀, v₀⟩ := p
      by_cases hk : k = k₀
      · simp [bucketGet, hk] at h
        simp [bucketPut, hk, h]
      · simp [bucketGet, hk] at h
        simp [bucketPut, hk, ih h]

theorem bucketPut_put {β : Type} (b : List (String × β)) (k : String) (v w : β) :
    bucketPut (bucketPut b k v) k w = bucketPut b k w := by
  induction b with
  | nil => simp [bucketPut]
  | cons p rest ih =>
      obtain ⟨k₀, v₀⟩ := p
      by_cases hk : k = k₀ <;> simp [bucketPut, hk, ih]

/-! ### Branch lemmas for `Activate` -/

theorem Activate_invalid (st : StoreState) (now : Nat) (key d : String)
    (h : trimSpace key = "" ∨ trimSpace d = "") :
    Activate st now key d = (st, ⟨false, "invalid_request", 0, 0, false⟩, none) := by
  unfold Activate
  simp only [if_pos h]

theorem Activate_too_long (st : StoreState) (now : Nat) (key d : String)
    (h1 : ¬(trimSpace key = "" ∨ trimSpace d = ""))
    (h2 : 128 < (trimSpace d).utf8ByteSize) :
    Activate st now key d = (st, ⟨false, "server_id_too_long", 0, 0, false⟩, none) := by
  unfold Activate
  simp only [if_neg h1, if_pos h2]

theorem Activate_not_found (st : StoreState) (now : Nat) (key d : String)
    (hkt : trimSpace key = key) (hk0 : key ≠ "")
    (hdt : trimSpace d = d) (hd0 : d ≠ "") (hdl : d.utf8ByteSize ≤ 128)
    (hlic : getLicense st key = none) :
    Activate st now key d = (st, ⟨false, "not_found", 0, 0, false⟩, none) := by
  unfold Activate
  rw [hkt, hdt]
  rw [if_neg (by simp [hk0, hd0]), if_neg (Nat.not_lt.mpr hdl), hlic]

theorem Activate_disabled (st : StoreState) (now : Nat) (key d : String) (lic : License)
    (hkt : trimSpace key = key) (hk0 : key ≠ "")
    (hdt : trimSpace d = d) (hd0 : d ≠ "") (hdl : d.utf8ByteSize ≤ 128)
    (hlic : getLicense st key = some lic) (hen : lic.enabled = false) :
    Activate st now key d = (st, ⟨false, "disabled", 0, lic.limit, false⟩, none) := by
  unfold Activate
  rw [hkt, hdt]
  rw [if_neg (by simp [hk0, hd0]), if_neg (Nat.not_lt.mpr hdl), hlic]
  simp only [hen, if_pos]

theorem Activate_refresh (st : StoreState) (now : Nat) (key d : String) (lic : License)
    (b : List (String × ServerBinding)) (sb : ServerBinding)
    (hkt : trimSpace key = key) (hk0 : key ≠ "")
    (hdt : trimSpace d = d) (hd0 : d ≠ "") (hdl : d.utf8ByteSize ≤ 128)
    (hlic : getLicense st key = some lic) (hen : lic.enabled = true)
    (hbs : bucketGet st.usage key = some b)
    (hsb : bucketGet b d = some sb) :
    Activate st now key d =
      ({ st with
           usage := bucketPut st.usage key
             (bucketPut b d ⟨sb.serverID, sb.firstSeen, now, sb.seenCount + 1⟩) },
       ⟨true, "ok", (b.length : Int), lic.limit, false⟩, none) := by
  unfold Activate
  rw [hkt, hdt]
  rw [if_neg (by simp [hk0, hd0]), if_neg (Nat.not_lt.mpr hdl), hlic]
  simp only [hen, hbs, Option.isSome_some, if_true, Option.getD_some, hsb,
    Bool.true_eq_false, if_false]
  have hlen := length_bucketPut_some b d
    ⟨sb.serverID, sb.firstSeen, now, sb.seenCount + 1⟩ sb hsb
  simp [countKeys, hlen]

theorem Activate_new (st : StoreState) (now : Nat) (key d : String) (lic : License)
    (b : List (String × ServerBinding))
    (hkt : trimSpace key = key) (hk0 : key ≠ "")
    (hdt : trimSpace d = d) (hd0 : d ≠ "") (hdl : d.utf8ByteSize ≤ 128)
    (hlic : getLicense st key = some lic) (hen : lic.enabled = true)
    (hb : (bucketGet st.usage key).getD [] = b)
    (hsb : bucketGet b d = none)
    (hlt : (b.length : Int) < lic.limit) :
    Activate st now key d =
      ({ st with usage := bucketPut st.usage key (bucketPut b d (freshBinding now d)) },
       ⟨true, "ok", (b.length : Int) + 1, lic.limit, true⟩, none) := by
  unfold Activate
  rw [hkt, hdt]
  rw [if_neg (by simp [hk0, hd0]), if_neg (Nat.not_lt.mpr hdl), hlic]
  have hlen := length_bucketPut_none b d (freshBinding now d) hsb
  cases hcase : bucketGet st.usage key with
  | some b0 =>
      have hb0 : b0 = b := by rw [hcase] at hb; simpa using hb
      subst hb0
      simp only [hcase, hen, Option.isSome_some, if_true, Option.getD_some, hsb,
        Bool.true_eq_false, if_false, countKeys, if_neg (not_le.mpr hlt)]
      simp [hlen]
  | none =>
      have hb0 : b = [] := by rw [hcase] at hb; simpa using hb.symm
      subst hb0
      simp only [hcase, hen, Option.isSome_none, if_false, Option.getD_none, hsb,
        Bool.true_eq_false, countKeys, if_neg (not_le.mpr hlt)]
      simp [hlen, bucketPut_put]

theorem Activate_full (st : StoreState) (now : Nat) (key d : String) (lic : License)
    (b : List (String × ServerBinding))
    (hkt : trimSpace key = key) (hk0 : key ≠ "")
    (hdt : trimSpace d = d) (hd0 : d ≠ "") (hdl : d.utf8ByteSize ≤ 128)
    (hlic : getLicense st key = some lic) (hen : lic.enabled = true)
    (hbs : bucketGet st.usage key = some b)
    (hsb : bucketGet b d = none)
    (hge : lic.limit ≤ (b.length : Int)) :
    Activate st now key d =
      (st, ⟨false, "limit_reached", (b.length : Int), lic.limit, false⟩, none) := by
  unfold Activate
  rw [hkt, hdt]
  rw [if_neg (by simp [hk0, hd0]), if_neg (Nat.not_lt.mpr hdl), hlic]
  simp only [hen, hbs, Option.isSome_some, if_true, Option.getD_some, hsb,
    Bool.true_eq_false, if_false, countKeys, if_pos hge]

/-! ### Iterated activation -/

theorem putAll_length (now : Nat) : ∀ (ds : List String) (b : List (String × ServerBinding)),
    ds.Nodup → (∀ d ∈ ds, bucketGet b d = none) →
    (putAll now b ds).length = b.length + ds.length
  | [], b, _, _ => by simp [putAll]
  | d :: ds, b, hnd, hnone => by
      have hd : bucketGet b d = none := hnone d (List.mem_cons_self d ds)
      have hrest : ∀ d' ∈ ds, bucketGet (bucketPut b d (freshBinding now d)) d' = none := by
        intro d' hd'
        have hne : d' ≠ d := fun h => (List.nodup_cons.mp hnd).1 (h ▸ hd')
        rw [bucketGet_put_ne _ _ _ _ hne]
        exact hnone d' (List.mem_cons_of_mem d hd')
      have := putAll_length now ds (bucketPut b d (freshBinding now d))
        (List.nodup_cons.mp hnd).2 hrest
      simp only [putAll, this, length_bucketPut_none b d (freshBinding now d) hd,
        List.length_cons]
      omega

theorem putAll_get_notMem (now : Nat) :
    ∀ (ds : List String) (b : List (String × ServerBinding)) (d : String),
    d ∉ ds → bucketGet (putAll now b ds) d = bucketGet b d
  | [], _, _, _ => rfl
  | d0 :: ds, b, d, h => by
      have hne : d ≠ d0 := fun he => h (he ▸ List.mem_cons_self d0 ds)
      have := putAll_get_notMem now ds (bucketPut b d0 (freshBinding now d0)) d
        (fun hm => h (List.mem_cons_of_mem d0 hm))
      simpa [putAll, bucketGet_put_ne _ _ _ _ hne] using this

theorem activateList_all_new (now : Nat) (key : String) (lic : License)
    (hkt : trimSpace key = key) (hk0 : key ≠ "") (hen : lic.enabled = true) :
    ∀ (ds : List String) (st : StoreState) (b : List (String × ServerBinding)),
    getLicense st key = some lic →
    bucketGet st.usage key = some b →
    (∀ d ∈ ds, ValidId d) →
    (∀ d ∈ ds, bucketGet b d = none) →
    ds.Nodup →
    (b.length : Int) + ds.length ≤ lic.limit →
    (activateList st now key ds).2 =
      (List.range ds.length).map
        (fun i => ⟨true, "ok", (b.length : Int) + i + 1, lic.limit, true⟩) ∧
    (activateList st now key ds).1.licenses = st.licenses ∧
    bucketGet (activateList st now key ds).1.usage key = some (putAll now b ds)
  | [], st, b, hlic, hbs, _, _, _, _ => by
      refine ⟨rfl, rfl, ?_⟩
      simpa [activateList, putAll] using hbs
  | d :: ds, st, b, hlic, hbs, hv, hnone, hnd, hle => by
      obtain ⟨hdt, hd0, hdl⟩ := hv d (List.mem_cons_self d ds)
      have hstep := Activate_new st now key d lic b hkt hk0 hdt hd0 hdl hlic hen
        (by rw [hbs]; rfl) (hnone d (List.mem_cons_self d ds))
        (by have : (0 : Int) ≤ ds.length := Int.ofNat_nonneg _
            simp only [List.length_cons] at hle
            push_cast at hle ⊢
            omega)
      set st' : StoreState :=
        { st with usage := bucketPut st.usage key (bucketPut b d (freshBinding now d)) }
        with hst'
      have hlic' : getLicense st' key = some lic := hlic
      have hbs' : bucketGet st'.usage key = some (bucketPut b d (freshBinding now d)) :=
        bucketGet_put_self _ _ _
      have hnone' : ∀ d' ∈ ds, bucketGet (bucketPut b d (freshBinding now d)) d' = none := by
        intro d' hd'
        have hne : d' ≠ d := fun h => (List.nodup_cons.mp hnd).1 (h ▸ hd')
        rw [bucketGet_put_ne _ _ _ _ hne]
        exact hnone d' (List.mem_cons_of_mem d hd')
      have hlenb : (bucketPut b d (freshBinding now d)).length = b.length + 1 :=
        length_bucketPut_none b d (freshBinding now d)
          (hnone d (List.mem_cons_self d ds))
      have hle' : ((bucketPut b d (freshBinding now d)).length : Int) + ds.length ≤ lic.limit := by
        rw [hlenb]
        simp only [List.length_cons] at hle
        push_cast at hle ⊢
        omega
      obtain ⟨ih1, ih2, ih3⟩ := activateList_all_new now key lic hkt hk0 hen ds st'
        (bucketPut b d (freshBinding now d)) hlic' hbs'
        (fun d' hd' => hv d' (List.mem_cons_of_mem d hd'))
        hnone' (List.nodup_cons.mp hnd).2 hle'
      have hrun : activateList st now key (d :: ds) =
          ((activateList st' now key ds).1,
            (⟨true, "ok", (b.length : Int) + 1, lic.limit, true⟩ : ActivateResult) ::
              (activateList st' now key ds).2) := by
        simp only [activateList, hstep]
      refine ⟨?_, ?_, ?_⟩
      · rw [hrun]
        simp only [List.length_cons, List.range_succ_eq_map, List.map_cons, List.map_map]
        congr 1
        rw [ih1, hlenb]
        refine List.map_congr_left ?_
        intro i _
        simp only [Function.comp_apply, ActivateResult.mk.injEq, true_and, and_true]
        push_cast
        ring
      · rw [hrun]
        simpa using ih2
      · rw [hrun]
        simpa [putAll] using ih3

theorem activateList_all_full (now : Nat) (key : String) (lic : License)
    (hkt : trimSpace key = key) (hk0 : key ≠ "") (hen : lic.enabled = true) :
    ∀ (ds : List String) (st : StoreState) (b : List (String × ServerBinding)),
    getLicense st key = some lic →
    bucketGet st.usage key = some b →
    (∀ d ∈ ds, ValidId d) →
    (∀ d ∈ ds, bucketGet b d = none) →
    lic.limit ≤ (b.length : Int) →
    activateList st now key ds =
      (st, List.replicate ds.length
        (⟨false, "limit_reached", (b.length : Int), lic.limit, false⟩ : ActivateResult))
  | [], st, b, _, _, _, _, _ => rfl
  | d :: ds, st, b, hlic, hbs, hv, hnone, hge => by
      obtain ⟨hdt, hd0, hdl⟩ := hv d (List.mem_cons_self d ds)
      have hstep := Activate_full st now key d lic b hkt hk0 hdt hd0 hdl hlic hen hbs
        (hnone d (List.mem_cons_self d ds)) hge
      have ih := activateList_all_full now key lic hkt hk0 hen ds st b hlic hbs
        (fun d' hd' => hv d' (List.mem_cons_of_mem d hd'))
        (fun d' hd' => hnone d' (List.mem_cons_of_mem d hd')) hge
      simp only [activateList, hstep, ih, List.length_cons, List.replicate_succ]

theorem activateList_append (st : StoreState) (now : Nat) (key : String)
    (l1 l2 : List String) :
    activateList st now key (l1 ++ l2) =
      ((activateList (activateList st now key l1).1 now key l2).1,
       (activateList st now key l1).2 ++
         (activateList (activateList st now key l1).1 now key l2).2) := by
  induction l1 generalizing st with
  | nil => simp [activateList]
  | cons d l1 ih =>
      simp only [List.cons_append, activateList, List.append_eq]
      rw [ih]

/-! ### Trimming is idempotent -/

theorem dropWhile_idem (p : α → Bool) (l : List α) :
    (l.dropWhile p).dropWhile p = l.dropWhile p := by
  cases h : l.dropWhile p with
  | nil => rfl
  | cons a t =>
      have ha : p a = false := by
        have hh := List.head?_dropWhile_not p l
        rw [h] at hh
        exact hh
      rw [List.dropWhile_cons_of_neg (by simp [ha])]

theorem dropWhile_head_false {p : α → Bool} {l : List α} (h : l.dropWhile p = l) :
    ∀ a ∈ l.head?, p a = false := by
  intro a ha
  cases l with
  | nil => simp at ha
  | cons b t =>
      simp only [List.head?_cons, Option.mem_def, Option.some.injEq] at ha
      subst ha
      by_cases hb : p b
      · rw [List.dropWhile_cons_of_pos hb] at h
        have hlen := congrArg List.length h
        have hle := (List.dropWhile_suffix p (l := t)).length_le
        simp at hlen
        omega
      · simpa using hb

theorem dropWhile_reverse_dropWhile (p : α → Bool) (m : List α)
    (hm : m.dropWhile p = m) :
    ((m.reverse.dropWhile p).reverse).dropWhile p = (m.reverse.dropWhile p).reverse := by
  have hpre : (m.reverse.dropWhile p).reverse <+: m := by
    have hsuf : m.reverse.dropWhile p <:+ m.reverse := List.dropWhile_suffix p
    have := List.reverse_prefix.mpr hsuf
    rwa [List.reverse_reverse] at this
  cases hrev : (m.reverse.dropWhile p).reverse with
  | nil => rfl
  | cons a t =>
      rw [hrev] at hpre
      obtain ⟨u, hu⟩ := hpre
      have ha : p a = false := by
        apply dropWhile_head_false hm
        rw [← hu]
        simp
      rw [List.dropWhile_cons_of_neg (by simp [ha])]

theorem trimSpace_idem (s : String) : trimSpace (trimSpace s) = trimSpace s := by
  unfold trimSpace
  congr 1
  rw [dropWhile_reverse_dropWhile Char.isWhitespace (s.data.dropWhile Char.isWhitespace)
    (dropWhile_idem _ _)]
  rw [List.reverse_reverse, dropWhile_idem]

/-- `Activate` only sees its inputs through `strings.TrimSpace`. -/
theorem Activate_trim (st : StoreState) (now : Nat) (key d : String) :
    Activate st now key d = Activate st now (trimSpace key) (trimSpace d) := by
  simp only [Activate, trimSpace_idem]

/-- The limit-reached branch in full generality: the returned state still
carries the usage sub-bucket created by `CreateBucketIfNotExists`. -/
theorem Activate_full_general (st : StoreState) (now : Nat) (key d : String)
    (lic : License)
    (hkt : trimSpace key = key) (hk0 : key ≠ "")
    (hdt : trimSpace d = d) (hd0 : d ≠ "") (hdl : d.utf8ByteSize ≤ 128)
    (hlic : getLicense st key = some lic) (hen : lic.enabled = true)
    (hsb : bucketGet ((bucketGet st.usage key).getD []) d = none)
    (hge : lic.limit ≤ countKeys ((bucketGet st.usage key).getD [])) :
    Activate st now key d =
      (if (bucketGet st.usage key).isSome then st
       else { st with usage := bucketPut st.usage key [] },
       ⟨false, "limit_reached", countKeys ((bucketGet st.usage key).getD []),
        lic.limit, false⟩, none) := by
  unfold Activate
  rw [hkt, hdt]
  rw [if_neg (by simp [hk0, hd0]), if_neg (Nat.not_lt.mpr hdl), hlic]
  simp only [hen, Bool.true_eq_false, if_false, hsb, if_pos hge]

/-! ### Claim theorems -/

/-- C10: when `Activate` rejects because the license is disabled, the result
carries `Used = 0` (the Go zero value) regardless of how many devices are
actually bound, while `Limit` carries the license's current limit; the
binding state is untouched. -/
theorem C10_disabled_reports_zero_used (st : StoreState) (now : Nat) (key d : String)
    (lic : License)
    (hkt : trimSpace key = key) (hk0 : key ≠ "") (hd : ValidId d)
    (hlic : getLicense st key = some lic) (hen : lic.enabled = false) :
    Activate st now key d = (st, ⟨false, "disabled", 0, lic.limit, false⟩, none) :=
  Activate_disabled st now key d lic hkt hk0 hd.1 hd.2.1 hd.2.2 hlic hen

/-- Witness for C10: `stDis` has three bindings under `"K"`, yet the disabled
rejection reports `used = 0`. -/
theorem C10_witness :
    Activate stDis 9 "K" "A" = (stDis, ⟨false, "disabled", 0, 2, false⟩, none) ∧
    countKeys ((bucketGet stDis.usage "K").getD []) = 3 :=
  ⟨C10_disabled_reports_zero_used stDis 9 "K" "A" ⟨"K", 2, "", false, 0⟩
      (by decide) (by decide) (by decide) (by decide) (by decide),
   by decide⟩

/-- C2: re-activating an already-bound device always succeeds with
`ok = true`, `newly_bound = false`, regardless of the current binding count
versus the limit; the distinct-binding count (reported as `used`) is
unchanged, that binding's `seen_count` grows by exactly one, `first_seen` is
unchanged, `last_seen` becomes `now` (hence does not decrease when the clock
does not go backwards), and no other license or binding is touched. -/
theorem C2_rebind_refresh (st : StoreState) (now : Nat) (key d : String)
    (lic : License) (b : List (String × ServerBinding)) (sb : ServerBinding)
    (hkt : trimSpace key = key) (hk0 : key ≠ "") (hd : ValidId d)
    (hlic : getLicense st key = some lic) (hen : lic.enabled = true)
    (hbs : bucketGet st.usage key = some b)
    (hsb : bucketGet b d = some sb)
    (hmono : sb.lastSeen ≤ now) :
    ∃ (st' : StoreState) (sb' : ServerBinding),
      Activate st now key d = (st', ⟨true, "ok", countKeys b, lic.limit, false⟩, none) ∧
      st'.licenses = st.licenses ∧
      bucketGet st'.usage key = some (bucketPut b d sb') ∧
      (∀ k, k ≠ key → bucketGet st'.usage k = bucketGet st.usage k) ∧
      (∀ d2, d2 ≠ d → bucketGet (bucketPut b d sb') d2 = bucketGet b d2) ∧
      bucketGet (bucketPut b d sb') d = some sb' ∧
      countKeys (bucketPut b d sb') = countKeys b ∧
      sb'.seenCount = sb.seenCount + 1 ∧
      sb'.firstSeen = sb.firstSeen ∧
      sb'.lastSeen = now ∧
      sb.lastSeen ≤ sb'.lastSeen := by
  obtain ⟨hdt, hd0, hdl⟩ := hd
  have hstep := Activate_refresh st now key d lic b sb hkt hk0 hdt hd0 hdl hlic hen hbs hsb
  refine ⟨_, ⟨sb.serverID, sb.firstSeen, now, sb.seenCount + 1⟩, hstep, rfl,
    bucketGet_put_self _ _ _, ?_, ?_, bucketGet_put_self _ _ _, ?_, rfl, rfl, rfl, hmono⟩
  · intro k hk
    exact bucketGet_put_ne _ _ _ _ hk
  · intro d2 hd2
    exact bucketGet_put_ne _ _ _ _ hd2
  · simp only [countKeys]
    rw [length_bucketPut_some b d _ sb hsb]

/-- Witness for C2: re-activating `"A"` on the at-capacity store `stBound`
succeeds without consuming capacity. -/
theorem C2_witness :
    ∃ (st' : StoreState) (sb' : ServerBinding),
      Activate stBound 9 "K" "A" = (st', ⟨true, "ok", 2, 2, false⟩, none) ∧
      st'.licenses = stBound.licenses ∧
      bucketGet st'.usage "K" =
        some (bucketPut [("A", ⟨"A", 1, 1, 1⟩), ("B", ⟨"B", 2, 2, 1⟩)] "A" sb') ∧
      (∀ k, k ≠ "K" → bucketGet st'.usage k = bucketGet stBound.usage k) ∧
      (∀ d2, d2 ≠ "A" →
        bucketGet (bucketPut [("A", ⟨"A", 1, 1, 1⟩), ("B", ⟨"B", 2, 2, 1⟩)] "A" sb') d2 =
          bucketGet [("A", ⟨"A", 1, 1, 1⟩), ("B", ⟨"B", 2, 2, 1⟩)] d2) ∧
      bucketGet (bucketPut [("A", ⟨"A", 1, 1, 1⟩), ("B", ⟨"B", 2, 2, 1⟩)] "A" sb') "A" =
        some sb' ∧
      countKeys (bucketPut [("A", ⟨"A", 1, 1, 1⟩), ("B", ⟨"B", 2, 2, 1⟩)] "A" sb') = 2 ∧
      sb'.seenCount = 2 ∧
      sb'.firstSeen = 1 ∧
      sb'.lastSeen = 9 ∧
      (1 : Nat) ≤ sb'.lastSeen :=
  C2_rebind_refresh stBound 9 "K" "A" licK
    [("A", ⟨"A", 1, 1, 1⟩), ("B", ⟨"B", 2, 2, 1⟩)] ⟨"A", 1, 1, 1⟩
    (by decide) (by decide) (by decide) (by decide) (by decide) (by decide)
    (by decide) (by decide)

/-- C3: a disabled license rejects every activation with reason `disabled`
and the current limit, touching nothing; `SetEnabled(key, false)` deletes no
bindings; and disabling then re-enabling restores the exact original store
state, so all subsequent behavior (including `Activate` admission) is as if
the license had never been disabled, with all prior bindings intact. -/
theorem C3_disable_blocks_enable_restores (st : StoreState) (now : Nat)
    (key d : String) (lic : License)
    (hkt : trimSpace key = key) (hk0 : key ≠ "") (hd : ValidId d)
    (hlic : getLicense st key = some lic) (hkey : lic.key = key) :
    (lic.enabled = false →
      Activate st now key d = (st, ⟨false, "disabled", 0, lic.limit, false⟩, none)) ∧
    (SetEnabled st key false).1.usage = st.usage ∧
    (lic.enabled = true →
      (SetEnabled (SetEnabled st key false).1 key true).1 = st ∧
      ∀ now2 d2, Activate (SetEnabled (SetEnabled st key false).1 key true).1 now2 key d2 =
        Activate st now2 key d2) := by
  have hlic' : bucketGet st.licenses key = some lic := hlic
  refine ⟨?_, ?_, ?_⟩
  · intro hen
    exact Activate_disabled st now key d lic hkt hk0 hd.1 hd.2.1 hd.2.2 hlic hen
  · simp only [SetEnabled, hlic]
  · intro hen
    have hdis : (SetEnabled st key false).1 =
        { st with licenses := bucketPut st.licenses key { lic with enabled := false } } := by
      simp only [SetEnabled, hlic, hkey]
    have heta : (⟨key, lic.limit, lic.note, true, lic.createdAt⟩ : License) = lic := by
      cases lic
      simp_all
    have hlic2 : getLicense (SetEnabled st key false).1 key =
        some { lic with enabled := false } := by
      show bucketGet (SetEnabled st key false).1.licenses key = _
      rw [hdis]
      exact bucketGet_put_self _ _ _
    have hback : (SetEnabled (SetEnabled st key false).1 key true).1 = st := by
      rw [hdis] at hlic2 ⊢
      simp only [SetEnabled, hlic2]
      simp only [hkey, bucketPut_put]
      rw [heta, bucketPut_get_self st.licenses key lic hlic']
    exact ⟨hback, fun now2 d2 => by rw [hback]⟩

/-- Witness for C3: on `stDis` activation is rejected as disabled; on
`stBound` the disable/enable round trip is the identity. -/
theorem C3_witness :
    Activate stDis 9 "K" "B" = (stDis, ⟨false, "disabled", 0, 2, false⟩, none) ∧
    (SetEnabled stBound "K" false).1.usage = stBound.usage ∧
    (SetEnabled (SetEnabled stBound "K" false).1 "K" true).1 = stBound := by
  refine ⟨?_, ?_, ?_⟩
  · exact (C3_disable_blocks_enable_restores stDis 9 "K" "B" ⟨"K", 2, "", false, 0⟩
      (by decide) (by decide) (by decide) (by decide) (by decide)).1 (by decide)
  · exact (C3_disable_blocks_enable_restores stBound 9 "K" "B" licK
      (by decide) (by decide) (by decide) (by decide) (by decide)).2.1
  · exact ((C3_disable_blocks_enable_restores stBound 9 "K" "B" licK
      (by decide) (by decide) (by decide) (by decide) (by decide)).2.2 (by decide)).1

/-- C7: `CreateLicense` with `limit ≤ 0` fails (invalid-argument error) and
changes nothing; with `limit > 0` it fails with the conflict error and
changes nothing when the generated key already exists; otherwise it persists
and returns `⟨key, limit, note, enabled := true, createdAt := now⟩`, leaving
every other license and every binding untouched. -/
theorem C7_create_license (st : StoreState) (key : String) (now : Nat)
    (limit : Int) (note : String) :
    (limit ≤ 0 →
      CreateLicense st key now limit note = (st, License.zero, some "limit must be > 0")) ∧
    (0 < limit → ∀ w, bucketGet st.licenses key = some w →
      CreateLicense st key now limit note =
        (st, License.zero, some "key collision, try again")) ∧
    (0 < limit → bucketGet st.licenses key = none →
      (CreateLicense st key now limit note).2.1 = ⟨key, limit, note, true, now⟩ ∧
      (CreateLicense st key now limit note).2.2 = none ∧
      getLicense (CreateLicense st key now limit note).1 key =
        some ⟨key, limit, note, true, now⟩ ∧
      (∀ k, k ≠ key →
        getLicense (CreateLicense st key now limit note).1 k = getLicense st k) ∧
      (∀ k d, lookupBinding (CreateLicense st key now limit note).1 k d =
        lookupBinding st k d)) := by
  refine ⟨?_, ?_, ?_⟩
  · intro h
    simp only [CreateLicense, if_pos h]
  · intro h w hw
    simp only [CreateLicense, if_neg (not_le.mpr h), hw, Option.isSome_some, if_true]
  · intro h hnone
    have hred : CreateLicense st key now limit note =
        ({ licenses := bucketPut st.licenses key ⟨key, limit, note, true, now⟩,
           usage := if (bucketGet st.usage key).isSome then st.usage
                    else bucketPut st.usage key [] },
         ⟨key, limit, note, true, now⟩, none) := by
      simp only [CreateLicense, if_neg (not_le.mpr h), hnone, Option.isSome_none,
        Bool.false_eq_true, if_false]
    rw [hred]
    refine ⟨rfl, rfl, bucketGet_put_self _ _ _, ?_, ?_⟩
    · intro k hk
      exact bucketGet_put_ne _ _ _ _ hk
    · intro k d
      unfold lookupBinding
      by_cases hu : (bucketGet st.usage key).isSome
      · simp only [hu, if_true]
      · have hun : bucketGet st.usage key = none := Option.not_isSome_iff_eq_none.mp hu
        simp only [hu, Bool.false_eq_true, if_false]
        by_cases hk : k = key
        · subst hk
          rw [bucketGet_put_self, hun]
          rfl
        · rw [bucketGet_put_ne _ _ _ _ hk]

/-- Witness for C7: the three outcomes at concrete inputs (rejected
non-positive limit, key collision on `stFresh`, successful creation on the
empty store). -/
theorem C7_witness :
    CreateLicense stFresh "K2" 7 0 "n" = (stFresh, License.zero, some "limit must be > 0") ∧
    CreateLicense stFresh "K" 7 3 "n" =
      (stFresh, License.zero, some "key collision, try again") ∧
    (CreateLicense stEmpty "K" 7 3 "n").2.1 = ⟨"K", 3, "n", true, 7⟩ ∧
    getLicense (CreateLicense stEmpty "K" 7 3 "n").1 "K" = some ⟨"K", 3, "n", true, 7⟩ := by
  refine ⟨?_, ?_, ?_, ?_⟩
  · exact (C7_create_license stFresh "K2" 7 0 "n").1 (by decide)
  · exact (C7_create_license stFresh "K" 7 3 "n").2.1 (by decide) licK (by decide)
  · exact ((C7_create_license stEmpty "K" 7 3 "n").2.2 (by decide) (by decide)).1
  · exact ((C7_create_license stEmpty "K" 7 3 "n").2.2 (by decide) (by decide)).2.2.1

/-- C8: `SetLimit` with `limit ≤ 0` is rejected before any write; with an
unknown key it fails with the not-found error; on success only the stored
license's `limit` field changes — key, note, enabled flag, creation time,
and the whole usage (binding) side of the store are untouched — and a device
that was already bound still re-activates successfully afterwards, even if
the new limit is below the current binding count. -/
theorem C8_set_limit_frame (st : StoreState) (key : String) (limit : Int) :
    (limit ≤ 0 → SetLimit st key limit = (st, License.zero, some "limit must be > 0")) ∧
    (0 < limit → getLicense st key = none →
      SetLimit st key limit = (st, License.zero, some "license not found")) ∧
    (∀ lic, 0 < limit → getLicense st key = some lic → lic.key = key →
      (SetLimit st key limit).2.2 = none ∧
      (SetLimit st key limit).2.1 = ⟨key, limit, lic.note, lic.enabled, lic.createdAt⟩ ∧
      getLicense (SetLimit st key limit).1 key =
        some ⟨key, limit, lic.note, lic.enabled, lic.createdAt⟩ ∧
      (∀ k, k ≠ key → getLicense (SetLimit st key limit).1 k = getLicense st k) ∧
      (SetLimit st key limit).1.usage = st.usage ∧
      (∀ (now : Nat) (d : String) (b : List (String × ServerBinding)) (sb : ServerBinding),
        trimSpace key = key → key ≠ "" → ValidId d → lic.enabled = true →
        bucketGet st.usage key = some b → bucketGet b d = some sb →
        (Activate (SetLimit st key limit).1 now key d).2.1.ok = true ∧
        (Activate (SetLimit st key limit).1 now key d).2.1.newlyBound = false)) := by
  refine ⟨?_, ?_, ?_⟩
  · intro h
    simp only [SetLimit, if_pos h]
  · intro h hnone
    simp only [SetLimit, if_neg (not_le.mpr h), hnone]
  · intro lic h hlic hkey
    have hred : SetLimit st key limit =
        ({ st with licenses :=
            bucketPut st.licenses key ⟨key, limit, lic.note, lic.enabled, lic.createdAt⟩ },
         ⟨key, limit, lic.note, lic.enabled, lic.createdAt⟩, none) := by
      simp only [SetLimit, if_neg (not_le.mpr h), hlic, hkey]
    refine ⟨by rw [hred], by rw [hred], ?_, ?_, by rw [hred], ?_⟩
    · show bucketGet (SetLimit st key limit).1.licenses key = _
      rw [hred]
      exact bucketGet_put_self _ _ _
    · intro k hk
      show bucketGet (SetLimit st key limit).1.licenses k = bucketGet st.licenses k
      rw [hred]
      exact bucketGet_put_ne _ _ _ _ hk
    · intro now d b sb hkt hk0 hd hen hbs hsb
      have hlic2 : getLicense (SetLimit st key limit).1 key =
          some ⟨key, limit, lic.note, lic.enabled, lic.createdAt⟩ := by
        show bucketGet (SetLimit st key limit).1.licenses key = _
        rw [hred]
        exact bucketGet_put_self _ _ _
      have hbs2 : bucketGet (SetLimit st key limit).1.usage key = some b := by
        rw [hred]
        exact hbs
      have hstep := Activate_refresh (SetLimit st key limit).1 now key d
        ⟨key, limit, lic.note, lic.enabled, lic.createdAt⟩ b sb
        hkt hk0 hd.1 hd.2.1 hd.2.2 hlic2 (by simpa using hen) hbs2 hsb
      rw [hstep]
      exact ⟨rfl, rfl⟩

/-- Witness for C8: lowering the limit of the at-capacity store `stBound`
from 2 to 1 keeps both bindings, and device `"A"` still re-activates. -/
theorem C8_witness :
    SetLimit stBound "K" 0 = (stBound, License.zero, some "limit must be > 0") ∧
    SetLimit stEmpty "K" 1 = (stEmpty, License.zero, some "license not found") ∧
    (SetLimit stBound "K" 1).2.1 = ⟨"K", 1, "", true, 0⟩ ∧
    (SetLimit stBound "K" 1).1.usage = stBound.usage ∧
    (Activate (SetLimit stBound "K" 1).1 9 "K" "A").2.1.ok = true ∧
    (Activate (SetLimit stBound "K" 1).1 9 "K" "A").2.1.newlyBound = false := by
  refine ⟨?_, ?_, ?_, ?_, ?_, ?_⟩
  · exact (C8_set_limit_frame stBound "K" 0).1 (by decide)
  · exact (C8_set_limit_frame stEmpty "K" 1).2.1 (by decide) (by decide)
  · exact ((C8_set_limit_frame stBound "K" 1).2.2 licK (by decide) (by decide)
      (by decide)).2.1
  · exact ((C8_set_limit_frame stBound "K" 1).2.2 licK (by decide) (by decide)
      (by decide)).2.2.2.2.1
  · exact (((C8_set_limit_frame stBound "K" 1).2.2 licK (by decide) (by decide)
      (by decide)).2.2.2.2.2 9 "A" [("A", ⟨"A", 1, 1, 1⟩), ("B", ⟨"B", 2, 2, 1⟩)]
      ⟨"A", 1, 1, 1⟩ (by decide) (by decide) (by decide) (by decide) (by decide)
      (by decide)).1
  · exact (((C8_set_limit_frame stBound "K" 1).2.2 licK (by decide) (by decide)
      (by decide)).2.2.2.2.2 9 "A" [("A", ⟨"A", 1, 1, 1⟩), ("B", ⟨"B", 2, 2, 1⟩)]
      ⟨"A", 1, 1, 1⟩ (by decide) (by decide) (by decide) (by decide) (by decide)
      (by decide)).2

/-- C9: for a known key, `GetInfo` returns the license, `Used` equal to the
number of distinct bound device ids (independent of the bindings' individual
`seen_count` values), and the bindings sorted by `last_seen` descending (a
permutation of the stored ledger); for an unknown key it fails with the
not-found error and the returned info is the zero value. -/
theorem C9_get_info (st : StoreState) (key : String) :
    (getLicense st key = none →
      GetInfo st key = (LicenseInfo.zero, some "license not found")) ∧
    (∀ lic, getLicense st key = some lic →
      (GetInfo st key).2 = none ∧
      (GetInfo st key).1.license = lic ∧
      (GetInfo st key).1.used = countKeys ((bucketGet st.usage key).getD []) ∧
      List.Perm (GetInfo st key).1.bindings
        (((bucketGet st.usage key).getD []).map fun q => { q.2 with serverID := q.1 }) ∧
      List.Sorted lastSeenGe (GetInfo st key).1.bindings ∧
      (∀ g : String → Int,
        (GetInfo (withCounts st key g) key).1.used = (GetInfo st key).1.used)) := by
  constructor
  · intro hnone
    simp only [GetInfo, hnone]
  · intro lic hlic
    have hred : GetInfo st key =
        (⟨lic, ((getBindings st key).length : Int), getBindings st key⟩, none) := by
      simp only [GetInfo, hlic]
    have hlen : (getBindings st key).length = ((bucketGet st.usage key).getD []).length := by
      unfold getBindings
      cases hb : bucketGet st.usage key with
      | none => simp
      | some b =>
          simp only [Option.getD_some]
          rw [(List.perm_insertionSort lastSeenGe _).length_eq, List.length_map]
    refine ⟨by rw [hred], by rw [hred], ?_, ?_, ?_, ?_⟩
    · rw [hred]
      simp only [countKeys, hlen]
    · rw [hred]
      unfold getBindings
      cases hb : bucketGet st.usage key with
      | none => simp
      | some b =>
          simp only [Option.getD_some]
          exact List.perm_insertionSort lastSeenGe _
    · rw [hred]
      unfold getBindings
      cases hb : bucketGet st.usage key with
      | none => simp [List.Sorted]
      | some b => exact List.sorted_insertionSort lastSeenGe _
    · intro g
      have hlic2 : getLicense (withCounts st key g) key = some lic := hlic
      have hred2 : GetInfo (withCounts st key g) key =
          (⟨lic, ((getBindings (withCounts st key g) key).length : Int),
            getBindings (withCounts st key g) key⟩, none) := by
        simp only [GetInfo, hlic2]
      rw [hred, hred2]
      simp only
      have hb2 : bucketGet (withCounts st key g).usage key =
          some (((bucketGet st.usage key).getD []).map fun q =>
            (q.1, { q.2 with seenCount := g q.1 })) := by
        unfold withCounts
        exact bucketGet_put_self _ _ _
      have hgb : ∀ (st2 : StoreState) (bb : List (String × ServerBinding)),
          bucketGet st2.usage key = some bb →
          (getBindings st2 key).length = bb.length := by
        intro st2 bb hb
        unfold getBindings
        simp only [hb]
        rw [(List.perm_insertionSort lastSeenGe _).length_eq, List.length_map]
      rw [hlen, hgb (withCounts st key g) _ hb2, List.length_map]

/-- Witness for C9: the info of `stBound` (two bindings, `"B"` most recent
first) and the not-found outcome on the empty store. -/
theorem C9_witness :
    GetInfo stEmpty "K" = (LicenseInfo.zero, some "license not found") ∧
    (GetInfo stBound "K").2 = none ∧
    (GetInfo stBound "K").1.license = licK ∧
    (GetInfo stBound "K").1.used = 2 ∧
    List.Sorted lastSeenGe (GetInfo stBound "K").1.bindings := by
  refine ⟨?_, ?_, ?_, ?_, ?_⟩
  · exact (C9_get_info stEmpty "K").1 (by decide)
  · exact ((C9_get_info stBound "K").2 licK (by decide)).1
  · exact ((C9_get_info stBound "K").2 licK (by decide)).2.1
  · exact ((C9_get_info stBound "K").2 licK (by decide)).2.2.1.trans (by decide)
  · exact ((C9_get_info stBound "K").2 licK (by decide)).2.2.2.2.1

/-- C1: against a fresh enabled license with limit `L`, activating `L`
distinct valid device ids succeeds every time with `newly_bound = true` and
`used` running 1, 2, …, `L`; a further distinct device is then rejected with
reason `limit_reached`, `used = L` and the license limit, and the store
state (in particular the binding ledger) is completely unchanged by the
rejected call. -/
theorem C1_limit_admission (st : StoreState) (now : Nat) (key : String)
    (lic : License) (ds : List String) (dX : String)
    (hkt : trimSpace key = key) (hk0 : key ≠ "")
    (hlic : getLicense st key = some lic) (hen : lic.enabled = true)
    (hfresh : bucketGet st.usage key = some [])
    (hv : ∀ d ∈ ds, ValidId d) (hnd : ds.Nodup)
    (hlen : (ds.length : Int) = lic.limit)
    (hX : ValidId dX) (hXn : dX ∉ ds) :
    (activateList st now key ds).2 =
      (List.range ds.length).map
        (fun i => ⟨true, "ok", (i : Int) + 1, lic.limit, true⟩) ∧
    Activate (activateList st now key ds).1 now key dX =
      ((activateList st now key ds).1,
       ⟨false, "limit_reached", lic.limit, lic.limit, false⟩, none) := by
  obtain ⟨h1, h2, h3⟩ := activateList_all_new now key lic hkt hk0 hen ds st []
    hlic hfresh hv (fun d _ => rfl) hnd (by simp [hlen])
  have hlicF : getLicense (activateList st now key ds).1 key = some lic := by
    show bucketGet (activateList st now key ds).1.licenses key = some lic
    rw [h2]
    exact hlic
  have hplen : (putAll now [] ds).length = ds.length := by
    have := putAll_length now ds [] hnd (fun d _ => rfl)
    simpa using this
  have hpX : bucketGet (putAll now [] ds) dX = none := by
    rw [putAll_get_notMem now ds [] dX hXn]
    rfl
  have hfull := Activate_full (activateList st now key ds).1 now key dX lic
    (putAll now [] ds) hkt hk0 hX.1 hX.2.1 hX.2.2 hlicF hen h3 hpX
    (by rw [hplen, hlen])
  refine ⟨?_, ?_⟩
  · rw [h1]
    refine List.map_congr_left ?_
    intro i _
    simp
  · rw [hfull, hplen, hlen]

/-- Witness for C1: limit 2, devices `"A"`, `"B"` admitted with used 1, 2;
`"C"` rejected with `limit_reached` and no state change. -/
theorem C1_witness :
    (activateList stFresh 5 "K" ["A", "B"]).2 =
      [⟨true, "ok", 1, 2, true⟩, ⟨true, "ok", 2, 2, true⟩] ∧
    Activate (activateList stFresh 5 "K" ["A", "B"]).1 5 "K" "C" =
      ((activateList stFresh 5 "K" ["A", "B"]).1,
       ⟨false, "limit_reached", 2, 2, false⟩, none) := by
  have h := C1_limit_admission stFresh 5 "K" licK ["A", "B"] "C"
    (by decide) (by decide) (by decide) (by decide) (by decide)
    (by decide) (by decide) (by decide) (by decide) (by decide)
  exact ⟨h.1.trans (by decide), h.2⟩

/-- C5: every serialization of N = L + 5 activation attempts with N distinct
new valid device ids against a fresh license with limit L admits exactly L
(the first L in serialization order, with `used` 1..L) and rejects the
remaining 5 with `limit_reached` — the hypotheses hold for every ordering of
the same device set, so the outcome is order-independent.  Moreover, with
one admission slot remaining, of two racing first activations for different
devices only the one serialized first is admitted.  (Within the source,
`Activate` runs inside a bbolt `db.Update` single-writer transaction, so
concurrent calls execute in some serialization order; the theorem quantifies
over all of them.) -/
theorem C5_concurrent_admission (st : StoreState) (now : Nat) (key : String)
    (lic : License) (L : Nat) (ds : List String)
    (hkt : trimSpace key = key) (hk0 : key ≠ "")
    (hlic : getLicense st key = some lic) (hen : lic.enabled = true)
    (hfresh : bucketGet st.usage key = some [])
    (hv : ∀ d ∈ ds, ValidId d) (hnd : ds.Nodup)
    (hlim : lic.limit = (L : Int)) (hlen : ds.length = L + 5) :
    ((activateList st now key ds).2 =
      (List.range L).map (fun i => ⟨true, "ok", (i : Int) + 1, lic.limit, true⟩) ++
      List.replicate 5 ⟨false, "limit_reached", lic.limit, lic.limit, false⟩ ∧
     (activateList st now key ds).2.countP (fun r => r.ok) = L ∧
     (activateList st now key ds).2.countP (fun r => r.reason == "limit_reached") = 5) ∧
    (∀ (st2 : StoreState) (b : List (String × ServerBinding)) (d1 d2 : String),
      getLicense st2 key = some lic →
      bucketGet st2.usage key = some b →
      ValidId d1 → ValidId d2 → d1 ≠ d2 →
      bucketGet b d1 = none → bucketGet b d2 = none →
      (b.length : Int) + 1 = lic.limit →
      ∃ stMid : StoreState,
        Activate st2 now key d1 =
          (stMid, ⟨true, "ok", lic.limit, lic.limit, true⟩, none) ∧
        Activate stMid now key d2 =
          (stMid, ⟨false, "limit_reached", lic.limit, lic.limit, false⟩, none)) := by
  constructor
  · have htake_len : (ds.take L).length = L := by
      rw [List.length_take]
      omega
    have hdrop_len : (ds.drop L).length = 5 := by
      rw [List.length_drop]
      omega
    obtain ⟨h1, h2, h3⟩ := activateList_all_new now key lic hkt hk0 hen (ds.take L) st []
      hlic hfresh (fun d hd => hv d (List.take_subset L ds hd)) (fun d _ => rfl)
      ((List.take_sublist L ds).nodup hnd)
      (by rw [htake_len, hlim]; simp)
    have hlicM : getLicense (activateList st now key (ds.take L)).1 key = some lic := by
      show bucketGet (activateList st now key (ds.take L)).1.licenses key = some lic
      rw [h2]
      exact hlic
    have hplen : (putAll now [] (ds.take L)).length = L := by
      have := putAll_length now (ds.take L) [] ((List.take_sublist L ds).nodup hnd)
        (fun d _ => rfl)
      simpa [htake_len] using this
    have hdisj : ∀ d ∈ ds.drop L, d ∉ ds.take L :=
      fun d hd hmem => (List.disjoint_take_drop hnd (le_refl L)) hmem hd
    have hfullrun := activateList_all_full now key lic hkt hk0 hen (ds.drop L)
      (activateList st now key (ds.take L)).1 (putAll now [] (ds.take L)) hlicM h3
      (fun d hd => hv d (List.drop_subset L ds hd))
      (fun d hd => by
        rw [putAll_get_notMem now (ds.take L) [] d (hdisj d hd)]
        rfl)
      (by rw [hplen, hlim])
    have happ := activateList_append st now key (ds.take L) (ds.drop L)
    rw [List.take_append_drop] at happ
    have hres : (activateList st now key ds).2 =
        (List.range L).map (fun i => ⟨true, "ok", (i : Int) + 1, lic.limit, true⟩) ++
        List.replicate 5 ⟨false, "limit_reached", lic.limit, lic.limit, false⟩ := by
      rw [happ]
      simp only [hfullrun, h1, htake_len, hdrop_len]
      congr 1
      · refine List.map_congr_left ?_
        intro i _
        simp
      · rw [hplen, hlim]
    refine ⟨hres, ?_, ?_⟩
    · rw [hres, List.countP_append, List.countP_map, List.countP_replicate]
      have hc : ((fun r : ActivateResult => r.ok) ∘
          (fun i : Nat => (⟨true, "ok", (i : Int) + 1, lic.limit, true⟩ : ActivateResult))) =
          fun _ => true := rfl
      rw [hc]
      simp
    · rw [hres, List.countP_append, List.countP_map, List.countP_replicate]
      have hc : ((fun r : ActivateResult => r.reason == "limit_reached") ∘
          (fun i : Nat => (⟨true, "ok", (i : Int) + 1, lic.limit, true⟩ : ActivateResult))) =
          fun _ => false := rfl
      rw [hc]
      simp
  · intro st2 b d1 d2 hlic2 hb2 hv1 hv2 hne h1n h2n hcount
    have hstep1 := Activate_new st2 now key d1 lic b hkt hk0 hv1.1 hv1.2.1 hv1.2.2
      hlic2 hen (by rw [hb2]; rfl) h1n (by omega)
    set bM := bucketPut b d1 (freshBinding now d1) with hbMdef
    set stM : StoreState := { st2 with usage := bucketPut st2.usage key bM } with hstMdef
    refine ⟨stM, ?_, ?_⟩
    · rw [hstep1, ← hcount]
    · have hlicM : getLicense stM key = some lic := hlic2
      have hbM : bucketGet stM.usage key = some bM := bucketGet_put_self _ _ _
      have hd2n : bucketGet bM d2 = none := by
        rw [hbMdef, bucketGet_put_ne _ _ _ _ hne.symm]
        exact h2n
      have hlen1 : bM.length = b.length + 1 := by
        rw [hbMdef]
        exact length_bucketPut_none b d1 _ h1n
      have hstep2 := Activate_full stM now key d2 lic bM
        hkt hk0 hv2.1 hv2.2.1 hv2.2.2 hlicM hen hbM hd2n
        (by rw [hlen1]; push_cast; omega)
      rw [hstep2, hlen1]
      have hcast : ((b.length + 1 : Nat) : Int) = lic.limit := by push_cast; omega
      rw [hcast]

/-- Witness for C5: limit 2, seven distinct devices: the first two are
admitted, the last five rejected; and on `stOne` (one slot left) of the two
racing devices `"B"`, `"C"` only the first is admitted. -/
theorem C5_witness :
    (activateList stFresh 5 "K" ["A", "B", "C", "D", "E", "F", "G"]).2 =
      [⟨true, "ok", 1, 2, true⟩, ⟨true, "ok", 2, 2, true⟩,
       ⟨false, "limit_reached", 2, 2, false⟩, ⟨false, "limit_reached", 2, 2, false⟩,
       ⟨false, "limit_reached", 2, 2, false⟩, ⟨false, "limit_reached", 2, 2, false⟩,
       ⟨false, "limit_reached", 2, 2, false⟩] ∧
    (∃ stMid : StoreState,
      Activate stOne 5 "K" "B" = (stMid, ⟨true, "ok", 2, 2, true⟩, none) ∧
      Activate stMid 5 "K" "C" =
        (stMid, ⟨false, "limit_reached", 2, 2, false⟩, none)) := by
  have h := C5_concurrent_admission stFresh 5 "K" licK 2
    ["A", "B", "C", "D", "E", "F", "G"]
    (by decide) (by decide) (by decide) (by decide) (by decide)
    (by decide) (by decide) (by decide) (by decide)
  refine ⟨h.1.1.trans (by decide), ?_⟩
  exact h.2 stOne [("A", ⟨"A", 1, 1, 1⟩)] "B" "C" (by decide) (by decide)
    (by decide) (by decide) (by decide) (by decide) (by decide) (by decide)

/-- C4 (amended): `Activate` first trims surrounding whitespace from both
inputs; if either is empty after trimming it rejects with
`invalid_request`, and otherwise, if the trimmed device identifier is
longer than 128 *UTF-8 bytes* (Go `len` on a string counts bytes, not
characters), it rejects with `server_id_too_long`.  Both rejections leave
the store untouched and are decided before any license lookup (the result
does not depend on the store contents).  An identifier of at most 128
bytes — e.g. 128 ASCII characters — is never rejected by this check. -/
theorem C4_input_validation (st : StoreState) (now : Nat) (key d : String) :
    (trimSpace key = "" ∨ trimSpace d = "" →
      Activate st now key d = (st, ⟨false, "invalid_request", 0, 0, false⟩, none)) ∧
    (¬(trimSpace key = "" ∨ trimSpace d = "") → 128 < (trimSpace d).utf8ByteSize →
      Activate st now key d = (st, ⟨false, "server_id_too_long", 0, 0, false⟩, none)) ∧
    ((trimSpace d).utf8ByteSize ≤ 128 →
      (Activate st now key d).2.1.reason ≠ "server_id_too_long") := by
  refine ⟨Activate_invalid st now key d, Activate_too_long st now key d, ?_⟩
  intro hle
  by_cases h1 : trimSpace key = "" ∨ trimSpace d = ""
  · rw [Activate_invalid st now key d h1]
    simp
  · push_neg at h1
    rw [Activate_trim]
    have hkt : trimSpace (trimSpace key) = trimSpace key := trimSpace_idem key
    have hdt : trimSpace (trimSpace d) = trimSpace d := trimSpace_idem d
    cases hg : getLicense st (trimSpace key) with
    | none =>
        rw [Activate_not_found st now (trimSpace key) (trimSpace d)
          hkt h1.1 hdt h1.2 hle hg]
        simp
    | some lic =>
        by_cases he : lic.enabled = true
        · cases hb : bucketGet ((bucketGet st.usage (trimSpace key)).getD [])
            (trimSpace d) with
          | some sb =>
              have hbs : bucketGet st.usage (trimSpace key) =
                  some ((bucketGet st.usage (trimSpace key)).getD []) := by
                cases hbk : bucketGet st.usage (trimSpace key) with
                | none =>
                    rw [hbk] at hb
                    simp [bucketGet] at hb
                | some bb => simp [hbk]
              rw [Activate_refresh st now (trimSpace key) (trimSpace d) lic
                ((bucketGet st.usage (trimSpace key)).getD []) sb
                hkt h1.1 hdt h1.2 hle hg he hbs hb]
              simp
          | none =>
              by_cases hlim : lic.limit ≤
                  countKeys ((bucketGet st.usage (trimSpace key)).getD [])
              · rw [Activate_full_general st now (trimSpace key) (trimSpace d) lic
                  hkt h1.1 hdt h1.2 hle hg he hb hlim]
                simp
              · rw [Activate_new st now (trimSpace key) (trimSpace d) lic
                  ((bucketGet st.usage (trimSpace key)).getD [])
                  hkt h1.1 hdt h1.2 hle hg he rfl hb
                  (by simpa [countKeys] using not_le.mp hlim)]
                simp
        · have he' : lic.enabled = false := by
            cases hE : lic.enabled
            · rfl
            · exact absurd hE he
          rw [Activate_disabled st now (trimSpace key) (trimSpace d) lic
            hkt h1.1 hdt h1.2 hle hg he']
          simp

set_option maxRecDepth 8000

/-- Counterexample to C4 as stated: `longId` is a device identifier of
exactly 128 characters (so, per the claim, it must not be rejected by the
length check), it is already trimmed and non-empty — yet `Activate` rejects
it with `server_id_too_long`, because the source checks Go `len`, the UTF-8
byte length (here 256). -/
theorem C4_counterexample :
    longId.length = 128 ∧
    trimSpace longId = longId ∧
    longId ≠ "" ∧
    longId.utf8ByteSize = 256 ∧
    Activate stFresh 0 "K" longId =
      (stFresh, ⟨false, "server_id_too_long", 0, 0, false⟩, none) := by
  refine ⟨by decide, by decide, by decide, by decide, by decide⟩

/-- Witness for C4 (amended): empty-after-trim input, a 256-byte identifier,
and a 128-byte (128 ASCII characters) identifier that passes the length
check. -/
theorem C4_witness :
    Activate stFresh 0 " " " A " = (stFresh, ⟨false, "invalid_request", 0, 0, false⟩, none) ∧
    Activate stFresh 0 "K" longId =
      (stFresh, ⟨false, "server_id_too_long", 0, 0, false⟩, none) ∧
    (Activate stFresh 0 "K" asciiId).2.1.reason ≠ "server_id_too_long" := by
  refine ⟨?_, ?_, ?_⟩
  · exact (C4_input_validation stFresh 0 " " " A ").1 (by decide)
  · exact (C4_input_validation stFresh 0 "K" longId).2.1 (by decide) (by decide)
  · exact (C4_input_validation stFresh 0 "K" asciiId).2.2 (by decide)

/-- C6: every `Activate` call returns a nil error (rejections are data, not
call-level failures), and has at most one visible side effect: when
`ok = false` no binding is created, modified or deleted and all license
records are unchanged; when `ok = true` the license records and every other
license's ledger and every other device's binding are unchanged, and exactly
one binding for the trimmed device id is present afterwards — fresh with
`seen_count = 1` when `newly_bound = true`, or the prior binding with
`seen_count` incremented and `first_seen` kept when `newly_bound = false`. -/
theorem C6_single_side_effect (st : StoreState) (now : Nat) (key d : String) :
    (Activate st now key d).2.2 = none ∧
    ((Activate st now key d).2.1.ok = false →
      (Activate st now key d).1.licenses = st.licenses ∧
      ∀ k d2, lookupBinding (Activate st now key d).1 k d2 = lookupBinding st k d2) ∧
    ((Activate st now key d).2.1.ok = true →
      (Activate st now key d).1.licenses = st.licenses ∧
      (∀ k, k ≠ trimSpace key →
        bucketGet (Activate st now key d).1.usage k = bucketGet st.usage k) ∧
      (∀ d2, d2 ≠ trimSpace d →
        lookupBinding (Activate st now key d).1 (trimSpace key) d2 =
          lookupBinding st (trimSpace key) d2) ∧
      ∃ sb' : ServerBinding,
        lookupBinding (Activate st now key d).1 (trimSpace key) (trimSpace d) =
          some sb' ∧
        ((Activate st now key d).2.1.newlyBound = true →
          lookupBinding st (trimSpace key) (trimSpace d) = none ∧
          sb'.seenCount = 1) ∧
        ((Activate st now key d).2.1.newlyBound = false →
          ∃ sb, lookupBinding st (trimSpace key) (trimSpace d) = some sb ∧
            sb'.seenCount = sb.seenCount + 1 ∧ sb'.firstSeen = sb.firstSeen)) := by
  by_cases h1 : trimSpace key = "" ∨ trimSpace d = ""
  · rw [Activate_invalid st now key d h1]
    exact ⟨rfl, fun _ => ⟨rfl, fun k d2 => rfl⟩, fun hok => absurd hok (by simp)⟩
  · push_neg at h1
    by_cases h2 : 128 < (trimSpace d).utf8ByteSize
    · rw [Activate_too_long st now key d (by tauto) h2]
      exact ⟨rfl, fun _ => ⟨rfl, fun k d2 => rfl⟩, fun hok => absurd hok (by simp)⟩
    · have hle : (trimSpace d).utf8ByteSize ≤ 128 := Nat.not_lt.mp h2
      rw [Activate_trim]
      have hkt : trimSpace (trimSpace key) = trimSpace key := trimSpace_idem key
      have hdt : trimSpace (trimSpace d) = trimSpace d := trimSpace_idem d
      cases hg : getLicense st (trimSpace key) with
      | none =>
          rw [Activate_not_found st now (trimSpace key) (trimSpace d)
            hkt h1.1 hdt h1.2 hle hg]
          exact ⟨rfl, fun _ => ⟨rfl, fun k d2 => rfl⟩, fun hok => absurd hok (by simp)⟩
      | some lic =>
          by_cases he : lic.enabled = true
          · cases hb : bucketGet ((bucketGet st.usage (trimSpace key)).getD [])
              (trimSpace d) with
            | some sb =>
                have hbs : bucketGet st.usage (trimSpace key) =
                    some ((bucketGet st.usage (trimSpace key)).getD []) := by
                  cases hbk : bucketGet st.usage (trimSpace key) with
                  | none =>
                      rw [hbk] at hb
                      simp [bucketGet] at hb
                  | some bb => simp [hbk]
                rw [Activate_refresh st now (trimSpace key) (trimSpace d) lic
                  ((bucketGet st.usage (trimSpace key)).getD []) sb
                  hkt h1.1 hdt h1.2 hle hg he hbs hb]
                refine ⟨rfl, fun hok => absurd hok (by simp), fun _ => ?_⟩
                refine ⟨rfl, ?_, ?_, ?_⟩
                · intro k hk
                  exact bucketGet_put_ne _ _ _ _ hk
                · intro d2 hd2
                  show bucketGet ((bucketGet (bucketPut st.usage (trimSpace key) _)
                    (trimSpace key)).getD []) d2 = _
                  rw [bucketGet_put_self]
                  exact bucketGet_put_ne _ _ _ _ hd2
                · refine ⟨⟨sb.serverID, sb.firstSeen, now, sb.seenCount + 1⟩, ?_, ?_, ?_⟩
                  · show bucketGet ((bucketGet (bucketPut st.usage (trimSpace key) _)
                      (trimSpace key)).getD []) (trimSpace d) = _
                    rw [bucketGet_put_self]
                    exact bucketGet_put_self _ _ _
                  · intro hnb
                    exact absurd hnb (by simp)
                  · intro _
                    exact ⟨sb, hb, rfl, rfl⟩
            | none =>
                by_cases hlim : lic.limit ≤
                    countKeys ((bucketGet st.usage (trimSpace key)).getD [])
                · rw [Activate_full_general st now (trimSpace key) (trimSpace d) lic
                    hkt h1.1 hdt h1.2 hle hg he hb hlim]
                  refine ⟨rfl, fun _ => ⟨?_, ?_⟩, fun hok => absurd hok (by simp)⟩
                  · by_cases hbk : (bucketGet st.usage (trimSpace key)).isSome
                    · simp only [hbk, if_true]
                    · simp only [hbk, Bool.false_eq_true, if_false]
                  · intro k d2
                    by_cases hbk : (bucketGet st.usage (trimSpace key)).isSome
                    · simp only [hbk, if_true]
                    · simp only [hbk, Bool.false_eq_true, if_false]
                      have hun : bucketGet st.usage (trimSpace key) = none :=
                        Option.not_isSome_iff_eq_none.mp (by simpa using hbk)
                      unfold lookupBinding
                      by_cases hk : k = trimSpace key
                      · subst hk
                        rw [bucketGet_put_self, hun]
                        rfl
                      · rw [bucketGet_put_ne _ _ _ _ hk]
                · rw [Activate_new st now (trimSpace key) (trimSpace d) lic
                    ((bucketGet st.usage (trimSpace key)).getD [])
                    hkt h1.1 hdt h1.2 hle hg he rfl hb
                    (by simpa [countKeys] using not_le.mp hlim)]
                  refine ⟨rfl, fun hok => absurd hok (by simp), fun _ => ?_⟩
                  refine ⟨rfl, ?_, ?_, ?_⟩
                  · intro k hk
                    exact bucketGet_put_ne _ _ _ _ hk
                  · intro d2 hd2
                    show bucketGet ((bucketGet (bucketPut st.usage (trimSpace key) _)
                      (trimSpace key)).getD []) d2 = _
                    rw [bucketGet_put_self]
                    exact bucketGet_put_ne _ _ _ _ hd2
                  · refine ⟨freshBinding now (trimSpace d), ?_, ?_, ?_⟩
                    · show bucketGet ((bucketGet (bucketPut st.usage (trimSpace key) _)
                        (trimSpace key)).getD []) (trimSpace d) = _
                      rw [bucketGet_put_self]
                      exact bucketGet_put_self _ _ _
                    · intro _
                      exact ⟨hb, rfl⟩
                    · intro hnb
                      exact absurd hnb (by simp)
          · have he' : lic.enabled = false := by
              cases hE : lic.enabled
              · rfl
              · exact absurd hE he
            rw [Activate_disabled st now (trimSpace key) (trimSpace d) lic
              hkt h1.1 hdt h1.2 hle hg he']
            exact ⟨rfl, fun _ => ⟨rfl, fun k d2 => rfl⟩, fun hok => absurd hok (by simp)⟩

/-- Witness for C6: a successful new binding (on `stFresh`) and a rejected
call (unknown key on `stEmpty`), both with nil error; conclusions evaluated
at those inputs via the theorem. -/
theorem C6_witness :
    ((Activate stFresh 5 "K" "A").2.2 = none ∧
      (Activate stFresh 5 "K" "A").2.1.ok = true) ∧
    ((Activate stEmpty 5 "K" "A").2.2 = none ∧
      (Activate stEmpty 5 "K" "A").2.1.ok = false ∧
      ∀ k d2, lookupBinding (Activate stEmpty 5 "K" "A").1 k d2 =
        lookupBinding stEmpty k d2) :=
  ⟨⟨(C6_single_side_effect stFresh 5 "K" "A").1, by decide⟩,
   ⟨(C6_single_side_effect stEmpty 5 "K" "A").1, by decide,
    ((C6_single_side_effect stEmpty 5 "K" "A").2.1 (by decide)).2⟩⟩

end PaqetLicense
